import Mathlib

set_option maxHeartbeats 1000000

/-! Shallow embedding of the PlanPull backend (src/app.py). -/

namespace PlanPull

/-- A poll option: display text plus the list of user ids that voted for it
(`{"text": ..., "votes": [...]}` in `app.py`). -/
structure PollOption where
  text : String
  votes : List String
deriving DecidableEq, Repr

/-- A poll row: `group_id`, `question`, `options` (model of `class Poll`). -/
structure Poll where
  group_id : Nat
  question : String
  options : List PollOption
deriving DecidableEq, Repr

/-- A group row (model of `class Group`). -/
structure Group where
  name : String
  members : List String
  creator : String
deriving DecidableEq, Repr

/-- The database state: group and poll tables as association lists keyed by
integer primary keys, plus the autoincrement id counters. -/
structure Store where
  groups : List (Nat × Group)
  polls : List (Nat × Poll)
  next_group_id : Nat
  next_poll_id : Nat
deriving DecidableEq, Repr

/-- Python's `str.strip()`: drop whitespace from both ends
(embedded over the string's character list so it is kernel-computable). -/
def strip (s : String) : String :=
  ⟨((s.data.dropWhile Char.isWhitespace).reverse.dropWhile Char.isWhitespace).reverse⟩

/-- A minimal JSON value type for the bodies produced by `jsonify`. -/
inductive Json where
  | str : String → Json
  | nat : Nat → Json
  | arr : List Json → Json
  | obj : List (String × Json) → Json

/-- The JSON body of a `POST /groups` request: each field is `none`
when the key is absent from the request body. -/
structure GroupInput where
  name : Option String
  creator : Option String
  members : Option (List String)
deriving DecidableEq, Repr

/-- The JSON body of a `POST /polls` request. -/
structure PollInput where
  group_id : Option Nat
  question : Option String
  options : Option (List String)
deriving DecidableEq, Repr

/-- The JSON body of a `POST /polls/<poll_id>/vote` request. -/
structure VoteInput where
  user_id : Option String
  option_index : Option Int
deriving DecidableEq, Repr

/-- `db.session.commit()` after mutating the poll fetched by primary key:
the row with key `k` is replaced by the new value `v`. -/
def updateAssoc (l : List (Nat × Poll)) (k : Nat) (v : Poll) : List (Nat × Poll) :=
  l.map (fun kv => if kv.1 = k then (k, v) else kv)

/-- Route `POST /groups` (`create_group` in `app.py`): validates that the
`name` and `creator` keys are present, computes the members list
(`data.get('members', [data['creator']])`, appending the creator if missing),
persists the group under the next id, and returns (status, body, new store). -/
def create_group (s : Store) (data : GroupInput) : Nat × Json × Store :=
  match data.name, data.creator with
  | some name, some creator =>
    let members_list := data.members.getD [creator]
    let members_list :=
      if creator ∈ members_list then members_list else members_list ++ [creator]
    let gid := s.next_group_id
    let g : Group := { name := name, members := members_list, creator := creator }
    (201, Json.obj [("message", Json.str "Group created"), ("group_id", Json.nat gid)],
      { s with groups := s.groups ++ [(gid, g)], next_group_id := gid + 1 })
  | _, _ =>
    (400, Json.obj [("message",
        Json.str "Invalid input: 'name' and 'creator' are required")], s)

/-- Route `POST /polls` (`create_poll` in `app.py`): validates that the
`group_id`, `question`, `options` keys are present, looks the group up
(404 when absent), builds `[{"text": opt.strip(), "votes": []} for opt in options]`
and persists the poll under the next id. -/
def create_poll (s : Store) (data : PollInput) : Nat × Json × Store :=
  match data.group_id, data.question, data.options with
  | some gid, some question, some opts =>
    match s.groups.lookup gid with
    | none => (404, Json.obj [("message", Json.str "Group not found")], s)
    | some _ =>
      let options := opts.map (fun opt => PollOption.mk (strip opt) [])
      let pid := s.next_poll_id
      let p : Poll := { group_id := gid, question := question, options := options }
      (201, Json.obj [("message", Json.str "Poll created"), ("poll_id", Json.nat pid)],
        { s with polls := s.polls ++ [(pid, p)], next_poll_id := pid + 1 })
  | _, _, _ =>
    (400, Json.obj [("message",
        Json.str "Invalid input: 'group_id', 'question', and 'options' are required")], s)

/-- The loop `for opt in options: if user_id in opt['votes']: opt['votes'].remove(user_id)`
applied to one option: `list.remove` deletes the first occurrence. -/
def removeVote (user_id : String) (opt : PollOption) : PollOption :=
  if user_id ∈ opt.votes then { opt with votes := opt.votes.erase user_id } else opt

/-- `options[option_index]['votes'].append(user_id)`: append `user_id` to the
votes of the option at the given index, leaving every other option unchanged. -/
def appendVoteAt : List PollOption → Nat → String → List PollOption
  | [], _, _ => []
  | o :: rest, 0, u => { o with votes := o.votes ++ [u] } :: rest
  | o :: rest, n + 1, u => o :: appendVoteAt rest n u

/-- The mutation core of `vote_poll` (lines 101–110 of `app.py`): remove the
user's previous vote from every option, then append the new vote. -/
def vote_apply (p : Poll) (user_id : String) (i : Nat) : Poll :=
  { p with options := appendVoteAt (p.options.map (removeVote user_id)) i user_id }

/-- `castVote` on a single poll: the index validation
`0 <= option_index < len(poll.options)` followed by the mutation core;
`none` models the `"Invalid option index"` rejection. -/
def castVote (p : Poll) (user_id : String) (option_index : Int) : Option Poll :=
  if 0 ≤ option_index ∧ option_index < (p.options.length : Int) then
    some (vote_apply p user_id option_index.toNat)
  else
    none

/-- Route `POST /polls/<poll_id>/vote` (`vote_poll` in `app.py`): 404 when the
poll id does not resolve, 400 when `user_id`/`option_index` are absent or the
index is out of range, otherwise commits the mutated poll and returns only a
confirmation message. -/
def vote_poll (s : Store) (poll_id : Nat) (data : VoteInput) : Nat × Json × Store :=
  match s.polls.lookup poll_id with
  | none => (404, Json.obj [("message", Json.str "Poll not found")], s)
  | some poll =>
    match data.user_id, data.option_index with
    | some user_id, some option_index =>
      match castVote poll user_id option_index with
      | none => (400, Json.obj [("message", Json.str "Invalid option index")], s)
      | some poll2 =>
        (200, Json.obj [("message", Json.str "Vote successfully cast/updated")],
          { s with polls := updateAssoc s.polls poll_id poll2 })
    | _, _ =>
      (400, Json.obj [("message",
          Json.str "Invalid input: 'user_id' and 'option_index' are required")], s)

/-- Route `GET /polls/<poll_id>` (`get_poll` in `app.py`): returns the question
and the options with their texts and vote lists. -/
def get_poll (s : Store) (poll_id : Nat) : Nat × Json :=
  match s.polls.lookup poll_id with
  | none => (404, Json.obj [("message", Json.str "Poll not found")])
  | some poll =>
    (200, Json.obj [("question", Json.str poll.question),
      ("options", Json.arr (poll.options.map (fun o =>
        Json.obj [("text", Json.str o.text),
                  ("votes", Json.arr (o.votes.map Json.str))])))])

/-- The in-memory poll record built by a successful `create_poll` for the
given question and option texts. -/
def created_poll (gid : Nat) (question : String) (texts : List String) : Poll :=
  { group_id := gid, question := question,
    options := texts.map (fun opt => PollOption.mk (strip opt) []) }

/-- Apply a sequence of `castVote` calls to a poll; `some` only when every
call in the sequence succeeds. -/
def applyVotes (p : Poll) : List (String × Int) → Option Poll
  | [] => some p
  | (u, i) :: rest =>
    match castVote p u i with
    | some p2 => applyVotes p2 rest
    | none => none

/-- A poll state reachable in the service: produced by `create_poll` and then
some finite sequence of successful `castVote` calls. -/
def ReachablePoll (p : Poll) : Prop :=
  ∃ gid question texts calls, applyVotes (created_poll gid question texts) calls = some p

/-- Total number of occurrences of user `u` across all vote lists. -/
def votesFor (u : String) (opts : List PollOption) : Nat :=
  (opts.map (fun o => o.votes.count u)).sum

/-- Number of options whose vote list contains user `u`. -/
def optionsWithVote (u : String) (opts : List PollOption) : Nat :=
  (opts.filter (fun o => u ∈ o.votes)).length

/-- The central invariant: each user id occurs at most once across all the
vote lists of a poll's options. -/
def UniqueVotes (p : Poll) : Prop :=
  ∀ u : String, votesFor u p.options ≤ 1

mutual
/-- Whether the string `t` occurs anywhere in a JSON value (as a string
leaf or as an object key). -/
def Json.containsStr (t : String) : Json → Bool
  | Json.str s => s = t
  | Json.nat _ => false
  | Json.arr l => containsStrArr t l
  | Json.obj l => containsStrObj t l

/-- `Json.containsStr` over the elements of a JSON array. -/
def containsStrArr (t : String) : List Json → Bool
  | [] => false
  | x :: xs => Json.containsStr t x || containsStrArr t xs

/-- `Json.containsStr` over the key/value pairs of a JSON object. -/
def containsStrObj (t : String) : List (String × Json) → Bool
  | [] => false
  | kv :: xs => decide (kv.1 = t) || Json.containsStr t kv.2 || containsStrObj t xs
end

/-! ### Basic lemmas about the vote mutation core -/

theorem removeVote_text (u : String) (o : PollOption) :
    (removeVote u o).text = o.text := by
  unfold removeVote; split <;> rfl

theorem removeVote_of_not_mem {u : String} {o : PollOption} (h : u ∉ o.votes) :
    removeVote u o = o := by
  unfold removeVote; simp [h]

theorem count_removeVote_self (u : String) (o : PollOption) :
    (removeVote u o).votes.count u = o.votes.count u - 1 := by
  unfold removeVote
  split
  · simp [List.count_erase_self]
  · simp [List.count_eq_zero_of_not_mem (by assumption)]

theorem count_removeVote_ne {u v : String} (h : u ≠ v) (o : PollOption) :
    (removeVote v o).votes.count u = o.votes.count u := by
  unfold removeVote
  split
  · simp [List.count_erase_of_ne h]
  · rfl

theorem appendVoteAt_length (opts : List PollOption) (n : Nat) (u : String) :
    (appendVoteAt opts n u).length = opts.length := by
  induction opts generalizing n with
  | nil => rfl
  | cons o rest ih =>
    cases n with
    | zero => simp [appendVoteAt]
    | succ m => simp [appendVoteAt, ih]

theorem appendVoteAt_map_text (opts : List PollOption) (n : Nat) (u : String) :
    (appendVoteAt opts n u).map PollOption.text = opts.map PollOption.text := by
  induction opts generalizing n with
  | nil => rfl
  | cons o rest ih =>
    cases n with
    | zero => simp [appendVoteAt]
    | succ m => simp [appendVoteAt, ih]

theorem appendVoteAt_getElem?_self (opts : List PollOption) (n : Nat) (u : String) :
    (appendVoteAt opts n u)[n]? =
      opts[n]?.map (fun o => { o with votes := o.votes ++ [u] }) := by
  induction opts generalizing n with
  | nil => simp [appendVoteAt]
  | cons o rest ih =>
    cases n with
    | zero => simp [appendVoteAt]
    | succ m => simpa [appendVoteAt] using ih m

theorem appendVoteAt_getElem?_ne (opts : List PollOption) {m n : Nat} (h : m ≠ n)
    (u : String) : (appendVoteAt opts n u)[m]? = opts[m]? := by
  induction opts generalizing m n with
  | nil => simp [appendVoteAt]
  | cons o rest ih =>
    cases n with
    | zero =>
      cases m with
      | zero => exact absurd rfl h
      | succ k => simp [appendVoteAt]
    | succ n2 =>
      cases m with
      | zero => simp [appendVoteAt]
      | succ k =>
        simpa [appendVoteAt] using ih (fun hk => h (by simp [hk])) (n := n2)

/-! ### The total vote count `votesFor` and its evolution -/

@[simp] theorem votesFor_nil (u : String) : votesFor u [] = 0 := rfl

@[simp] theorem votesFor_cons (u : String) (o : PollOption) (rest : List PollOption) :
    votesFor u (o :: rest) = o.votes.count u + votesFor u rest := by
  simp [votesFor]

theorem count_le_votesFor {u : String} {o : PollOption} {opts : List PollOption}
    (h : o ∈ opts) : o.votes.count u ≤ votesFor u opts := by
  induction opts with
  | nil => cases h
  | cons o2 rest ih =>
    rcases List.mem_cons.mp h with h2 | h2
    · subst h2; simp
    · have := ih h2
      simp only [votesFor_cons]
      omega

theorem not_mem_map_removeVote {u : String} {opts : List PollOption}
    (h : ∀ o ∈ opts, o.votes.count u ≤ 1) :
    ∀ o ∈ opts.map (removeVote u), u ∉ o.votes := by
  intro o ho
  rcases List.mem_map.mp ho with ⟨o2, ho2, rfl⟩
  have hc := count_removeVote_self u o2
  have : (removeVote u o2).votes.count u = 0 := by
    have := h o2 ho2; omega
  exact List.not_mem_of_count_eq_zero this

theorem votesFor_map_removeVote_self {u : String} {opts : List PollOption}
    (h : ∀ o ∈ opts, o.votes.count u ≤ 1) :
    votesFor u (opts.map (removeVote u)) = 0 := by
  induction opts with
  | nil => rfl
  | cons o rest ih =>
    have h1 : (removeVote u o).votes.count u = 0 := by
      have := count_removeVote_self u o
      have := h o (List.mem_cons_self o rest)
      omega
    simp only [List.map_cons, votesFor_cons, h1,
      ih (fun o2 ho2 => h o2 (List.mem_cons_of_mem o ho2))]

theorem votesFor_map_removeVote_ne {u v : String} (h : u ≠ v)
    (opts : List PollOption) :
    votesFor u (opts.map (removeVote v)) = votesFor u opts := by
  induction opts with
  | nil => rfl
  | cons o rest ih =>
    simp only [List.map_cons, votesFor_cons, count_removeVote_ne h, ih]

theorem votesFor_appendVoteAt_self (opts : List PollOption) (n : Nat) (u : String) :
    votesFor u (appendVoteAt opts n u) ≤ votesFor u opts + 1 := by
  induction opts generalizing n with
  | nil => simp [appendVoteAt]
  | cons o rest ih =>
    cases n with
    | zero =>
      simp only [appendVoteAt, votesFor_cons, List.count_append]
      have : List.count u [u] = 1 := by simp
      omega
    | succ m =>
      simp only [appendVoteAt, votesFor_cons]
      have := ih m
      omega

theorem votesFor_appendVoteAt_ne {u v : String} (h : u ≠ v)
    (opts : List PollOption) (n : Nat) :
    votesFor u (appendVoteAt opts n v) = votesFor u opts := by
  induction opts generalizing n with
  | nil => simp [appendVoteAt]
  | cons o rest ih =>
    cases n with
    | zero =>
      simp only [appendVoteAt, votesFor_cons, List.count_append]
      have : List.count u [v] = 0 := by
        simp [List.count_singleton, h]
      omega
    | succ m =>
      simp only [appendVoteAt, votesFor_cons, ih]

/-! ### The poll-wide uniqueness invariant and its preservation -/

theorem uniqueVotes_created (gid : Nat) (question : String) (texts : List String) :
    UniqueVotes (created_poll gid question texts) := by
  intro u
  induction texts with
  | nil => simp [created_poll, votesFor]
  | cons t rest ih =>
    simpa [created_poll, votesFor] using ih

theorem castVote_some_iff {p : Poll} {u : String} {i : Int} {p2 : Poll} :
    castVote p u i = some p2 ↔
      (0 ≤ i ∧ i < (p.options.length : Int)) ∧ p2 = vote_apply p u i.toNat := by
  unfold castVote
  split
  · simp [eq_comm]
    tauto
  · simp
    tauto

theorem uniqueVotes_castVote {p : Poll} {v : String} {i : Int} {p2 : Poll}
    (hp : UniqueVotes p) (h : castVote p v i = some p2) : UniqueVotes p2 := by
  rcases castVote_some_iff.mp h with ⟨-, rfl⟩
  intro u
  have hopt : (vote_apply p v i.toNat).options =
      appendVoteAt (p.options.map (removeVote v)) i.toNat v := rfl
  rw [hopt]
  by_cases huv : u = v
  · subst huv
    have h0 : votesFor u (p.options.map (removeVote u)) = 0 :=
      votesFor_map_removeVote_self
        (fun o ho => le_trans (count_le_votesFor ho) (hp u))
    have := votesFor_appendVoteAt_self (p.options.map (removeVote u)) i.toNat u
    omega
  · rw [votesFor_appendVoteAt_ne huv, votesFor_map_removeVote_ne huv]
    exact hp u

theorem uniqueVotes_applyVotes {p q : Poll} {calls : List (String × Int)}
    (hp : UniqueVotes p) (h : applyVotes p calls = some q) : UniqueVotes q := by
  induction calls generalizing p with
  | nil =>
    simp only [applyVotes, Option.some_inj] at h
    exact h ▸ hp
  | cons c rest ih =>
    unfold applyVotes at h
    cases hc : castVote p c.1 c.2 with
    | none => rw [hc] at h; cases h
    | some p2 =>
      rw [hc] at h
      exact ih (uniqueVotes_castVote hp hc) h

theorem reachable_uniqueVotes {p : Poll} (h : ReachablePoll p) : UniqueVotes p := by
  rcases h with ⟨gid, question, texts, calls, h⟩
  exact uniqueVotes_applyVotes (uniqueVotes_created gid question texts) h

theorem optionsWithVote_le_votesFor (u : String) (opts : List PollOption) :
    optionsWithVote u opts ≤ votesFor u opts := by
  induction opts with
  | nil => simp [optionsWithVote]
  | cons o rest ih =>
    simp only [optionsWithVote, votesFor_cons] at *
    rw [List.filter_cons]
    by_cases h : u ∈ o.votes
    · have h1 : 1 ≤ o.votes.count u := List.count_pos_iff.mpr h
      simp only [h, decide_True, if_true, List.length_cons]
      omega
    · simp [h]
      omega

/-! ### Idempotence machinery -/

theorem Poll.ext_fields {p q : Poll} (h1 : p.group_id = q.group_id)
    (h2 : p.question = q.question) (h3 : p.options = q.options) : p = q := by
  cases p; cases q
  cases h1; cases h2; cases h3
  rfl

theorem map_removeVote_of_forall_not_mem {u : String} {opts : List PollOption}
    (h : ∀ o ∈ opts, u ∉ o.votes) : opts.map (removeVote u) = opts := by
  induction opts with
  | nil => rfl
  | cons o rest ih =>
    rw [List.map_cons, removeVote_of_not_mem (h o (List.mem_cons_self o rest)),
      ih (fun o2 ho2 => h o2 (List.mem_cons_of_mem o ho2))]

theorem map_removeVote_appendVoteAt {u : String} {opts : List PollOption}
    (h : ∀ o ∈ opts, u ∉ o.votes) (n : Nat) :
    (appendVoteAt opts n u).map (removeVote u) = opts := by
  induction opts generalizing n with
  | nil => rfl
  | cons o rest ih =>
    have ho : u ∉ o.votes := h o (List.mem_cons_self o rest)
    have hrest : ∀ o2 ∈ rest, u ∉ o2.votes :=
      fun o2 ho2 => h o2 (List.mem_cons_of_mem o ho2)
    cases n with
    | zero =>
      rw [appendVoteAt, List.map_cons, map_removeVote_of_forall_not_mem hrest]
      have hhead : removeVote u { o with votes := o.votes ++ [u] } = o := by
        unfold removeVote
        rw [if_pos (by simp)]
        have : (o.votes ++ [u]).erase u = o.votes := by
          rw [List.erase_append_right _ ho, List.erase_cons_head, List.append_nil]
        simp [this]
      rw [hhead]
    | succ m =>
      rw [appendVoteAt, List.map_cons, removeVote_of_not_mem ho, ih hrest]

theorem vote_apply_options (p : Poll) (u : String) (n : Nat) :
    (vote_apply p u n).options = appendVoteAt (p.options.map (removeVote u)) n u := rfl

theorem vote_apply_idem (p : Poll) (u : String) (n : Nat)
    (h : ∀ o ∈ p.options, o.votes.count u ≤ 1) :
    vote_apply (vote_apply p u n) u n = vote_apply p u n := by
  have hA : ∀ o ∈ p.options.map (removeVote u), u ∉ o.votes := not_mem_map_removeVote h
  refine Poll.ext_fields ?_ ?_ ?_
  · rfl
  · rfl
  · rw [vote_apply_options, vote_apply_options, map_removeVote_appendVoteAt hA]

/-! ### Store-level lemmas for the vote route -/

theorem lookup_cons_eq (a k : Nat) (b : Poll) (l : List (Nat × Poll)) :
    List.lookup a ((k, b) :: l) = if a = k then some b else List.lookup a l := by
  rw [List.lookup_cons]
  by_cases h : a = k
  · simp [h]
  · have hb : (a == k) = false := by simpa using h
    simp [hb, h]

theorem updateAssoc_cons (k1 : Nat) (p1 : Poll) (rest : List (Nat × Poll))
    (k : Nat) (v : Poll) :
    updateAssoc ((k1, p1) :: rest) k v =
      (if k1 = k then (k, v) else (k1, p1)) :: updateAssoc rest k v := rfl

theorem lookup_updateAssoc_ne {k2 k : Nat} (h : k2 ≠ k) (l : List (Nat × Poll))
    (v : Poll) : (updateAssoc l k v).lookup k2 = l.lookup k2 := by
  induction l with
  | nil => rfl
  | cons kv rest ih =>
    obtain ⟨k1, p1⟩ := kv
    rw [updateAssoc_cons]
    by_cases hk : k1 = k
    · subst hk
      rw [if_pos rfl, lookup_cons_eq, lookup_cons_eq, if_neg h, if_neg h, ih]
    · rw [if_neg hk, lookup_cons_eq, lookup_cons_eq]
      by_cases h2 : k2 = k1
      · rw [if_pos h2, if_pos h2]
      · rw [if_neg h2, if_neg h2, ih]

theorem lookup_updateAssoc_self {k : Nat} {l : List (Nat × Poll)} {p : Poll}
    (h : l.lookup k = some p) (v : Poll) :
    (updateAssoc l k v).lookup k = some v := by
  induction l with
  | nil => cases h
  | cons kv rest ih =>
    obtain ⟨k1, p1⟩ := kv
    rw [updateAssoc_cons]
    by_cases hk : k1 = k
    · subst hk
      rw [if_pos rfl, lookup_cons_eq, if_pos rfl]
    · rw [lookup_cons_eq, if_neg (fun he => hk he.symm)] at h
      rw [if_neg hk, lookup_cons_eq, if_neg (fun he => hk he.symm), ih h]

theorem castVote_length {p : Poll} {u : String} {i : Int} {p2 : Poll}
    (h : castVote p u i = some p2) : p2.options.length = p.options.length := by
  rcases castVote_some_iff.mp h with ⟨-, rfl⟩
  rw [vote_apply_options, appendVoteAt_length, List.length_map]

/-! ### Claim theorems -/

/-- C1: for every poll created by `create_poll` and every finite sequence of
successful `castVote` calls applied to it, after each call any fixed user id
`u` appears in the vote lists of at most one of the poll's options
(quantifying over all successful call sequences covers every intermediate
state, since each prefix of a successful sequence is itself one). -/
theorem C1_at_most_one_vote (gid : Nat) (question : String) (texts : List String)
    (calls : List (String × Int)) (p : Poll) (u : String)
    (h : applyVotes (created_poll gid question texts) calls = some p) :
    optionsWithVote u p.options ≤ 1 :=
  le_trans (optionsWithVote_le_votesFor u p.options)
    (uniqueVotes_applyVotes (uniqueVotes_created gid question texts) h u)

/-- Witness for C1 at a concrete poll and call sequence. -/
theorem C1_at_most_one_vote_witness :
    optionsWithVote "u1" (Poll.mk 1 "Q" [⟨"A", []⟩, ⟨"B", ["u1"]⟩]).options ≤ 1 :=
  C1_at_most_one_vote 1 "Q" ["A", "B"] [("u1", 0), ("u1", 1)]
    (Poll.mk 1 "Q" [⟨"A", []⟩, ⟨"B", ["u1"]⟩]) "u1" (by decide)

/-- C2: `castVote` is idempotent: on any poll state reachable in the service,
casting the same vote again immediately returns exactly the same poll state. -/
theorem C2_castVote_idempotent (p : Poll) (u : String) (i : Int) (p1 : Poll)
    (hr : ReachablePoll p) (h1 : castVote p u i = some p1) :
    castVote p1 u i = some p1 := by
  have hInv := reachable_uniqueVotes hr
  rcases castVote_some_iff.mp h1 with ⟨⟨hi0, hilen⟩, rfl⟩
  have hcnt : ∀ o ∈ p.options, o.votes.count u ≤ 1 :=
    fun o ho => le_trans (count_le_votesFor ho) (hInv u)
  apply castVote_some_iff.mpr
  refine ⟨⟨hi0, ?_⟩, ?_⟩
  · have hlen : (vote_apply p u i.toNat).options.length = p.options.length := by
      rw [vote_apply_options, appendVoteAt_length, List.length_map]
    rw [hlen]
    exact hilen
  · exact (vote_apply_idem p u i.toNat hcnt).symm

/-- Witness for C2 at a concrete reachable poll. -/
theorem C2_castVote_idempotent_witness :
    castVote (Poll.mk 1 "Q" [PollOption.mk "A" ["u1"]]) "u1" 0 =
      some (Poll.mk 1 "Q" [PollOption.mk "A" ["u1"]]) :=
  C2_castVote_idempotent (Poll.mk 1 "Q" [PollOption.mk "A" []]) "u1" 0
    (Poll.mk 1 "Q" [PollOption.mk "A" ["u1"]])
    ⟨1, "Q", ["A"], [], by decide⟩ (by decide)

/-- C3: vote move: on any reachable poll with at least two options, voting for
option 0 and then for option 1 leaves the user out of option 0's votes and
inside option 1's votes. -/
theorem C3_vote_move (p : Poll) (u : String) (p1 p2 : Poll)
    (hr : ReachablePoll p) (hlen2 : 2 ≤ p.options.length)
    (h1 : castVote p u 0 = some p1) (h2 : castVote p1 u 1 = some p2) :
    (∀ o, p2.options[0]? = some o → u ∉ o.votes) ∧
    (∃ o, p2.options[1]? = some o ∧ u ∈ o.votes) := by
  have hInv1 : UniqueVotes p1 := uniqueVotes_castVote (reachable_uniqueVotes hr) h1
  have hlen1 : p1.options.length = p.options.length := castVote_length h1
  rcases castVote_some_iff.mp h2 with ⟨-, rfl⟩
  have hB : ∀ o ∈ p1.options.map (removeVote u), u ∉ o.votes :=
    not_mem_map_removeVote (fun o ho => le_trans (count_le_votesFor ho) (hInv1 u))
  rw [vote_apply_options, Int.toNat_one]
  constructor
  · intro o ho
    rw [appendVoteAt_getElem?_ne _ (by omega) u] at ho
    exact hB o (List.getElem?_mem ho)
  · have hBlen : 1 < (p1.options.map (removeVote u)).length := by
      rw [List.length_map]; omega
    obtain ⟨b, hb⟩ : ∃ b, (p1.options.map (removeVote u))[1]? = some b :=
      ⟨_, List.getElem?_eq_getElem hBlen⟩
    refine ⟨{ b with votes := b.votes ++ [u] }, ?_, ?_⟩
    · rw [appendVoteAt_getElem?_self, hb]
      rfl
    · simp

/-- Witness for C3 at a concrete reachable poll with two options. -/
theorem C3_vote_move_witness :
    (∀ o, (Poll.mk 1 "Q" [⟨"A", []⟩, ⟨"B", ["u1"]⟩]).options[0]? = some o →
        "u1" ∉ o.votes) ∧
    (∃ o, (Poll.mk 1 "Q" [⟨"A", []⟩, ⟨"B", ["u1"]⟩]).options[1]? = some o ∧
        "u1" ∈ o.votes) :=
  C3_vote_move (Poll.mk 1 "Q" [⟨"A", []⟩, ⟨"B", []⟩]) "u1"
    (Poll.mk 1 "Q" [⟨"A", ["u1"]⟩, ⟨"B", []⟩])
    (Poll.mk 1 "Q" [⟨"A", []⟩, ⟨"B", ["u1"]⟩])
    ⟨1, "Q", ["A", "B"], [], by decide⟩ (by decide) (by decide) (by decide)

/-- C4: on an existing poll, a vote request with an out-of-range option index
returns the 400 `"Invalid option index"` validation error and leaves the
store — hence every option's vote list — unchanged. -/
theorem C4_bad_index_rejected (s : Store) (pid : Nat) (d : VoteInput)
    (poll : Poll) (u : String) (i : Int)
    (hp : s.polls.lookup pid = some poll)
    (hu : d.user_id = some u) (hi : d.option_index = some i)
    (hbad : ¬(0 ≤ i ∧ i < (poll.options.length : Int))) :
    vote_poll s pid d =
      (400, Json.obj [("message", Json.str "Invalid option index")], s) := by
  simp only [vote_poll, hp, hu, hi, castVote, if_neg hbad]

/-- Witness for C4: index 2 on a 2-option poll. -/
theorem C4_bad_index_rejected_witness :
    vote_poll (Store.mk [] [(1, Poll.mk 1 "Where?" [⟨"Park", []⟩, ⟨"Beach", []⟩])] 1 2)
        1 (VoteInput.mk (some "u1") (some 2)) =
      (400, Json.obj [("message", Json.str "Invalid option index")],
        Store.mk [] [(1, Poll.mk 1 "Where?" [⟨"Park", []⟩, ⟨"Beach", []⟩])] 1 2) :=
  C4_bad_index_rejected _ 1 _ (Poll.mk 1 "Where?" [⟨"Park", []⟩, ⟨"Beach", []⟩])
    "u1" 2 (by decide) rfl rfl (by decide)

/-- C5: a successful `create_poll` appends a poll whose options are exactly the
supplied texts in order, each trimmed of surrounding whitespace, each with an
empty vote list. -/
theorem C5_create_poll_options (s : Store) (d : PollInput) (gid : Nat)
    (question : String) (texts : List String) (g : Group)
    (hg : d.group_id = some gid) (hq : d.question = some question)
    (ho : d.options = some texts) (hfound : s.groups.lookup gid = some g) :
    (create_poll s d).1 = 201 ∧
    (create_poll s d).2.2.polls = s.polls ++ [(s.next_poll_id,
      Poll.mk gid question (texts.map (fun t => PollOption.mk (strip t) [])))] := by
  simp [create_poll, hg, hq, ho, hfound]

/-- Witness for C5 with texts that need trimming. -/
theorem C5_create_poll_options_witness :
    (create_poll (Store.mk [(1, Group.mk "G" ["c"] "c")] [] 2 1)
      (PollInput.mk (some 1) (some "Where?") (some [" Park ", "Beach"]))).1 = 201 ∧
    (create_poll (Store.mk [(1, Group.mk "G" ["c"] "c")] [] 2 1)
      (PollInput.mk (some 1) (some "Where?") (some [" Park ", "Beach"]))).2.2.polls =
      [] ++ [(1, Poll.mk 1 "Where?"
        ([" Park ", "Beach"].map (fun t => PollOption.mk (strip t) [])))] :=
  C5_create_poll_options _ _ 1 "Where?" [" Park ", "Beach"]
    (Group.mk "G" ["c"] "c") rfl rfl rfl (by decide)

/-- The vote mutation never changes the option texts. -/
theorem vote_apply_map_text (p : Poll) (u : String) (n : Nat) :
    (vote_apply p u n).options.map PollOption.text = p.options.map PollOption.text := by
  rw [vote_apply_options, appendVoteAt_map_text, List.map_map]
  exact List.map_congr_left (fun o _ => removeVote_text u o)

/-- C10: frame property of a successful vote: the groups table and id counters
are untouched, every other poll row is untouched, and the target poll keeps
its question, group reference and option texts (hence also its option count);
only the vote lists may change. -/
theorem C10_frame (s : Store) (pid : Nat) (d : VoteInput)
    (h : (vote_poll s pid d).1 = 200) :
    (vote_poll s pid d).2.2.groups = s.groups ∧
    (vote_poll s pid d).2.2.next_group_id = s.next_group_id ∧
    (vote_poll s pid d).2.2.next_poll_id = s.next_poll_id ∧
    (∀ k, k ≠ pid → (vote_poll s pid d).2.2.polls.lookup k = s.polls.lookup k) ∧
    ∃ p p2, s.polls.lookup pid = some p ∧
      (vote_poll s pid d).2.2.polls.lookup pid = some p2 ∧
      p2.question = p.question ∧ p2.group_id = p.group_id ∧
      p2.options.map PollOption.text = p.options.map PollOption.text := by
  cases hp : s.polls.lookup pid with
  | none => simp [vote_poll, hp] at h
  | some poll =>
    cases hu : d.user_id with
    | none => simp [vote_poll, hp, hu] at h
    | some u =>
      cases hi : d.option_index with
      | none => simp [vote_poll, hp, hu, hi] at h
      | some i =>
        cases hc : castVote poll u i with
        | none => simp [vote_poll, hp, hu, hi, hc] at h
        | some p2 =>
          simp only [vote_poll, hp, hu, hi, hc]
          refine ⟨trivial, trivial, trivial, ?_, poll, p2, rfl, ?_, ?_, ?_, ?_⟩
          · intro k hk
            exact lookup_updateAssoc_ne hk s.polls p2
          · exact lookup_updateAssoc_self hp p2
          · rcases castVote_some_iff.mp hc with ⟨-, rfl⟩
            rfl
          · rcases castVote_some_iff.mp hc with ⟨-, rfl⟩
            rfl
          · rcases castVote_some_iff.mp hc with ⟨-, rfl⟩
            exact vote_apply_map_text poll u i.toNat

/-- Witness for C10: a concrete successful vote. -/
theorem C10_frame_witness :
    (vote_poll (Store.mk [(1, Group.mk "G" ["u1"] "u1")]
        [(1, Poll.mk 1 "Where?" [⟨"Park", []⟩, ⟨"Beach", []⟩])] 2 2)
      1 (VoteInput.mk (some "u1") (some 0))).2.2.groups =
        [(1, Group.mk "G" ["u1"] "u1")] ∧
    (vote_poll (Store.mk [(1, Group.mk "G" ["u1"] "u1")]
        [(1, Poll.mk 1 "Where?" [⟨"Park", []⟩, ⟨"Beach", []⟩])] 2 2)
      1 (VoteInput.mk (some "u1") (some 0))).2.2.next_group_id = 2 ∧
    (vote_poll (Store.mk [(1, Group.mk "G" ["u1"] "u1")]
        [(1, Poll.mk 1 "Where?" [⟨"Park", []⟩, ⟨"Beach", []⟩])] 2 2)
      1 (VoteInput.mk (some "u1") (some 0))).2.2.next_poll_id = 2 ∧
    (∀ k, k ≠ 1 → (vote_poll (Store.mk [(1, Group.mk "G" ["u1"] "u1")]
        [(1, Poll.mk 1 "Where?" [⟨"Park", []⟩, ⟨"Beach", []⟩])] 2 2)
      1 (VoteInput.mk (some "u1") (some 0))).2.2.polls.lookup k =
        (Store.mk [(1, Group.mk "G" ["u1"] "u1")]
          [(1, Poll.mk 1 "Where?" [⟨"Park", []⟩, ⟨"Beach", []⟩])] 2 2).polls.lookup k) ∧
    ∃ p p2, (Store.mk [(1, Group.mk "G" ["u1"] "u1")]
        [(1, Poll.mk 1 "Where?" [⟨"Park", []⟩, ⟨"Beach", []⟩])] 2 2).polls.lookup 1 =
          some p ∧
      (vote_poll (Store.mk [(1, Group.mk "G" ["u1"] "u1")]
          [(1, Poll.mk 1 "Where?" [⟨"Park", []⟩, ⟨"Beach", []⟩])] 2 2)
        1 (VoteInput.mk (some "u1") (some 0))).2.2.polls.lookup 1 = some p2 ∧
      p2.question = p.question ∧ p2.group_id = p.group_id ∧
      p2.options.map PollOption.text = p.options.map PollOption.text :=
  C10_frame (Store.mk [(1, Group.mk "G" ["u1"] "u1")]
      [(1, Poll.mk 1 "Where?" [⟨"Park", []⟩, ⟨"Beach", []⟩])] 2 2)
    1 (VoteInput.mk (some "u1") (some 0)) (by decide)

/-- C6 as stated fails on the code: `create_group` only checks that the keys
are present, so an empty-string name is accepted — the route returns 201 and
persists a group with empty name instead of rejecting with a validation error. -/
theorem C6_counterexample :
    (create_group (Store.mk [] [] 1 1)
      (GroupInput.mk (some "") (some "c") none)).1 = 201 ∧
    (create_group (Store.mk [] [] 1 1)
      (GroupInput.mk (some "") (some "c") none)).2.2.groups =
      [(1, Group.mk "" ["c"] "c")] := by
  exact ⟨rfl, rfl⟩

/-- C6 amended: `create_group` fails with the 400 validation error exactly
when the `name` or `creator` key is absent, leaving the store unchanged;
whenever both keys are present — even with empty-string values — it returns
201 and persists a new group. -/
theorem C6_amended_validation (s : Store) (d : GroupInput) :
    ((d.name = none ∨ d.creator = none) →
      (create_group s d).1 = 400 ∧ (create_group s d).2.2 = s) ∧
    (∀ n c, d.name = some n → d.creator = some c →
      (create_group s d).1 = 201 ∧
      ∃ g : Group, g.name = n ∧ g.creator = c ∧
        (create_group s d).2.2.groups = s.groups ++ [(s.next_group_id, g)]) := by
  constructor
  · intro habs
    cases hn : d.name with
    | none =>
      cases hc : d.creator <;> exact ⟨by simp [create_group, hn, hc], by simp [create_group, hn, hc]⟩
    | some n =>
      cases hc : d.creator with
      | none => exact ⟨by simp [create_group, hn, hc], by simp [create_group, hn, hc]⟩
      | some c => simp [hn, hc] at habs
  · intro n c hn hc
    simp only [create_group, hn, hc]
    exact ⟨trivial, _, rfl, rfl, rfl⟩

/-- Witness for the amended C6: a missing name is rejected, an empty-string
name is accepted. -/
theorem C6_amended_validation_witness :
    (create_group (Store.mk [] [] 1 1) (GroupInput.mk none (some "c") none)).1 = 400 ∧
    (create_group (Store.mk [] [] 1 1) (GroupInput.mk (some "") (some "c") none)).1 = 201 :=
  ⟨((C6_amended_validation (Store.mk [] [] 1 1)
      (GroupInput.mk none (some "c") none)).1 (Or.inl rfl)).1,
   ((C6_amended_validation (Store.mk [] [] 1 1)
      (GroupInput.mk (some "") (some "c") none)).2 "" "c" rfl rfl).1⟩

/-- C7 as stated fails on the code: `create_poll` never checks that the
options list is non-empty, so with an existing group and `options = []` the
route returns 201 and persists a poll with zero options. -/
theorem C7_counterexample :
    (create_poll (Store.mk [(1, Group.mk "G" ["c"] "c")] [] 2 1)
      (PollInput.mk (some 1) (some "Q?") (some []))).1 = 201 ∧
    (create_poll (Store.mk [(1, Group.mk "G" ["c"] "c")] [] 2 1)
      (PollInput.mk (some 1) (some "Q?") (some []))).2.2.polls =
      [(1, Poll.mk 1 "Q?" [])] := by
  exact ⟨rfl, rfl⟩

/-- C7 amended: `create_poll` fails with the 400 validation error exactly when
the `group_id`, `question` or `options` key is absent (store unchanged); an
empty options list is accepted, and when the group exists it creates a poll
with zero options. -/
theorem C7_amended_validation (s : Store) (d : PollInput) :
    ((d.group_id = none ∨ d.question = none ∨ d.options = none) →
      (create_poll s d).1 = 400 ∧ (create_poll s d).2.2 = s) ∧
    (∀ gid question g, d.group_id = some gid → d.question = some question →
      d.options = some [] → s.groups.lookup gid = some g →
      (create_poll s d).1 = 201 ∧
      (create_poll s d).2.2.polls =
        s.polls ++ [(s.next_poll_id, Poll.mk gid question [])]) := by
  constructor
  · intro habs
    cases hg : d.group_id with
    | none =>
      cases hq : d.question <;> cases ho : d.options <;>
        exact ⟨by simp [create_poll, hg, hq, ho], by simp [create_poll, hg, hq, ho]⟩
    | some gid =>
      cases hq : d.question with
      | none =>
        cases ho : d.options <;>
          exact ⟨by simp [create_poll, hg, hq, ho], by simp [create_poll, hg, hq, ho]⟩
      | some question =>
        cases ho : d.options with
        | none =>
          exact ⟨by simp [create_poll, hg, hq, ho], by simp [create_poll, hg, hq, ho]⟩
        | some opts => simp [hg, hq, ho] at habs
  · intro gid question g hg hq ho hfound
    simp [create_poll, hg, hq, ho, hfound]

/-- Witness for the amended C7: a missing options key is rejected, an empty
options list is accepted and creates a zero-option poll. -/
theorem C7_amended_validation_witness :
    (create_poll (Store.mk [(1, Group.mk "G" ["c"] "c")] [] 2 1)
      (PollInput.mk (some 1) (some "Q?") none)).1 = 400 ∧
    (create_poll (Store.mk [(1, Group.mk "G" ["c"] "c")] [] 2 1)
      (PollInput.mk (some 1) (some "Q?") (some []))).2.2.polls =
      [] ++ [(1, Poll.mk 1 "Q?" [])] :=
  ⟨((C7_amended_validation (Store.mk [(1, Group.mk "G" ["c"] "c")] [] 2 1)
      (PollInput.mk (some 1) (some "Q?") none)).1 (Or.inr (Or.inr rfl))).1,
   ((C7_amended_validation (Store.mk [(1, Group.mk "G" ["c"] "c")] [] 2 1)
      (PollInput.mk (some 1) (some "Q?") (some []))).2 1 "Q?"
      (Group.mk "G" ["c"] "c") rfl rfl rfl (by decide)).2⟩

/-- C8 as stated fails on the code: a successful vote response is the fixed
`{"message": ...}` object and carries no options projection — the voted
option's text `"Park"` appears in the stored poll (as `get_poll` shows) but
nowhere in the vote response body. -/
theorem C8_counterexample :
    (vote_poll (Store.mk [] [(1, Poll.mk 1 "Where?" [⟨"Park", []⟩, ⟨"Beach", []⟩])] 1 2)
        1 (VoteInput.mk (some "u1") (some 0))).1 = 200 ∧
    Json.containsStr "Park"
      (vote_poll (Store.mk [] [(1, Poll.mk 1 "Where?" [⟨"Park", []⟩, ⟨"Beach", []⟩])] 1 2)
        1 (VoteInput.mk (some "u1") (some 0))).2.1 = false ∧
    Json.containsStr "Park"
      (get_poll (vote_poll
          (Store.mk [] [(1, Poll.mk 1 "Where?" [⟨"Park", []⟩, ⟨"Beach", []⟩])] 1 2)
          1 (VoteInput.mk (some "u1") (some 0))).2.2 1).2 = true := by
  exact ⟨rfl, rfl, rfl⟩

/-- C8 amended: on every successful call `vote_poll` returns only the fixed
confirmation message; the updated options projection is not in the response
and must be read back through `get_poll`. -/
theorem C8_vote_response_message_only (s : Store) (pid : Nat) (d : VoteInput)
    (h : (vote_poll s pid d).1 = 200) :
    (vote_poll s pid d).2.1 =
      Json.obj [("message", Json.str "Vote successfully cast/updated")] := by
  cases hp : s.polls.lookup pid with
  | none => simp [vote_poll, hp] at h
  | some poll =>
    cases hu : d.user_id with
    | none => simp [vote_poll, hp, hu] at h
    | some u =>
      cases hi : d.option_index with
      | none => simp [vote_poll, hp, hu, hi] at h
      | some i =>
        cases hc : castVote poll u i with
        | none => simp [vote_poll, hp, hu, hi, hc] at h
        | some p2 => simp [vote_poll, hp, hu, hi, hc]

/-- Witness for the amended C8 at a concrete successful vote. -/
theorem C8_vote_response_message_only_witness :
    (vote_poll (Store.mk [] [(1, Poll.mk 1 "Where?" [⟨"Park", []⟩, ⟨"Beach", []⟩])] 1 2)
        1 (VoteInput.mk (some "u1") (some 1))).2.1 =
      Json.obj [("message", Json.str "Vote successfully cast/updated")] :=
  C8_vote_response_message_only
    (Store.mk [] [(1, Poll.mk 1 "Where?" [⟨"Park", []⟩, ⟨"Beach", []⟩])] 1 2)
    1 (VoteInput.mk (some "u1") (some 1)) (by decide)

/-- C9 as stated fails on the code: duplicates in the supplied members list
are stored verbatim — `members=["bob","bob"]` yields a stored members list in
which `"bob"` occurs twice. -/
theorem C9_counterexample :
    (create_group (Store.mk [] [] 1 1)
      (GroupInput.mk (some "G") (some "alice") (some ["bob", "bob"]))).2.2.groups =
      [(1, Group.mk "G" ["bob", "bob", "alice"] "alice")] ∧
    (["bob", "bob", "alice"] : List String).count "bob" = 2 := by
  exact ⟨rfl, rfl⟩

/-- C9 amended: for valid input the stored members equal, as a set, the union
of the supplied members list (empty if omitted) and the singleton creator; the
creator is appended only when missing, but duplicates already inside the
supplied members list are stored as-is (no dedup). -/
theorem C9_members_set (s : Store) (d : GroupInput) (n c : String)
    (hn : d.name = some n) (hc : d.creator = some c) :
    ∃ g : Group, (create_group s d).2.2.groups = s.groups ++ [(s.next_group_id, g)] ∧
      g.creator = c ∧
      (∀ x, x ∈ g.members ↔ x ∈ d.members.getD [] ∨ x = c) := by
  simp only [create_group, hn, hc]
  refine ⟨_, rfl, rfl, ?_⟩
  intro x
  cases hm : d.members with
  | none => simp
  | some ms =>
    by_cases hcm : c ∈ ms
    · simp only [Option.getD_some, if_pos hcm]
      constructor
      · exact fun hx => Or.inl hx
      · rintro (hx | rfl)
        · exact hx
        · exact hcm
    · simp only [Option.getD_some, if_neg hcm, List.mem_append,
        List.mem_singleton]

/-- Witness for the amended C9 with a creator missing from the members list. -/
theorem C9_members_set_witness :
    ∃ g : Group,
      (create_group (Store.mk [] [] 1 1)
        (GroupInput.mk (some "Trip") (some "alice") (some ["bob"]))).2.2.groups =
        [] ++ [(1, g)] ∧
      g.creator = "alice" ∧
      (∀ x, x ∈ g.members ↔
        x ∈ (some ["bob"] : Option (List String)).getD [] ∨ x = "alice") :=
  C9_members_set (Store.mk [] [] 1 1)
    (GroupInput.mk (some "Trip") (some "alice") (some ["bob"])) "Trip" "alice" rfl rfl

end PlanPull
